import Mathlib

/-!
Verification of the telixCallHandler event filter / webhook relay
(`src/telixCallHandler/calls.py`) against its natural-language specification.

The handlers (`on_incomming_call`, `on_hangup`, `on_accept`,
`on_outgoing_call`, `on_transfer`), the registered rules (lines 55-59), and
the sender (`send_bg`, `send`, `executor`) are embedded from the source.
The event-matching semantics and the dispatch loop live in the external
`asterisk.ami` library (not part of this repository's sources), so those
are modelled from the spec, as marked in the corresponding doc comments.

Machine-level conventions: an AMI event is a kind tag plus a string-to-string
field mapping; Python dictionary access `event[k]` is embedded as an
`Except`-valued lookup whose `error` case stands for the `KeyError` exception.
Literal brace characters in strings are written with `\x7b` / `\x7d` escapes.
-/

namespace TelixCallHandler

/-- Space character (U+0020), the separator used by the Python split calls. -/
def spaceChar : Char := Char.ofNat 32

/-- Double-quote character (U+0022). -/
def quoteChar : Char := Char.ofNat 34

/-- Backslash character (U+005C). -/
def backslashChar : Char := Char.ofNat 92

/-- Opening brace character (U+007B). -/
def lbraceChar : Char := Char.ofNat 123

/-- Closing brace character (U+007D). -/
def rbraceChar : Char := Char.ofNat 125

/-- Colon character (U+003A). -/
def colonChar : Char := Char.ofNat 58

/-- Comma character (U+002C). -/
def commaChar : Char := Char.ofNat 44

/-- An inbound AMI event: a kind tag (the event name, e.g. "Newstate") plus an
immutable mapping from field name to field value (spec section 3,
InboundEvent). -/
structure Event where
  kind : String
  fields : List (String × String)
deriving DecidableEq

/-- Python `event[k]`: the field value when present, a `KeyError` exception
(embedded as `Except.error`) when absent. -/
def getF (e : Event) (k : String) : Except String String :=
  match e.fields.lookup k with
  | some v => Except.ok v
  | none => Except.error ("KeyError: " ++ k)

/-- Python split on a single space with maxsplit one, first element: the
prefix of `s` before the first space character, or all of `s` when it has no
space. Only U+0020 separates; other whitespace such as tab does not. -/
def pySplitSpaceFirst (s : String) : String :=
  (s.toList.takeWhile (fun c => c != spaceChar)).asString

/-- Python `s.lower()`, restricted to ASCII case mapping (the event field
values exercised by the spec are ASCII). -/
def pyLower (s : String) : String :=
  (s.toList.map Char.toLower).asString

/-- Source line 28 (`on_incomming_call`): renders the Incoming Call payload by
`%`-interpolating CallerIDNum, Uniqueid and Exten into a JSON-shaped template;
a missing field is a `KeyError`. -/
def on_incomming_call (e : Event) : Except String String := do
  let c ← getF e "CallerIDNum"
  let u ← getF e "Uniqueid"
  let x ← getF e "Exten"
  pure ("\x7b\"event\": \"Incoming Call\", \"remote\": \"" ++ c ++
    "\", \"callid\": \"" ++ u ++ "\", \"dialed\": \"" ++ x ++ "\"\x7d")

/-- Source line 31 (`on_hangup`): renders the Hangup payload from Uniqueid and
CallerIDNum. -/
def on_hangup (e : Event) : Except String String := do
  let u ← getF e "Uniqueid"
  let c ← getF e "CallerIDNum"
  pure ("\x7b\"event\": \"Hangup\", \"callid\": \"" ++ u ++
    "\", \"remote\": \"" ++ c ++ "\"\x7d")

/-- Source lines 33-37 (`on_accept`): the ConnectedLineName is read first (the
`if` condition), then Uniqueid, CallerIDNum and Exten; when the name is
exactly the sentinel `<unknown>` the `user` field is omitted, otherwise
`user` is the part of the name before the first space, lower-cased. -/
def on_accept (e : Event) : Except String String := do
  let v ← getF e "ConnectedLineName"
  let u ← getF e "Uniqueid"
  let c ← getF e "CallerIDNum"
  let x ← getF e "Exten"
  if v == "<unknown>" then
    pure ("\x7b\"event\": \"Accepted Call\", \"callid\": \"" ++ u ++
      "\", \"remote\": \"" ++ c ++ "\", \"dialed\": \"" ++ x ++ "\"\x7d")
  else
    pure ("\x7b\"event\": \"Accepted Call\", \"callid\": \"" ++ u ++
      "\", \"remote\": \"" ++ c ++ "\", \"dialed\": \"" ++ x ++
      "\", \"user\": \"" ++ pyLower (pySplitSpaceFirst v) ++ "\"\x7d")

/-- Source line 40 (`on_outgoing_call`): Outgoing Call payload from Uniqueid,
Exten and the first space-delimited word of CallerIDName, lower-cased. -/
def on_outgoing_call (e : Event) : Except String String := do
  let u ← getF e "Uniqueid"
  let x ← getF e "Exten"
  let n ← getF e "CallerIDName"
  pure ("\x7b\"event\": \"Outgoing Call\", \"callid\": \"" ++ u ++
    "\", \"remote\": \"" ++ x ++ "\", \"user\": \"" ++
    pyLower (pySplitSpaceFirst n) ++ "\"\x7d")

/-- Source line 43 (`on_transfer`): Transfer Call payload from
TransfereeUniqueid and the first space-delimited word of
TransferTargetCallerIDName, lower-cased. -/
def on_transfer (e : Event) : Except String String := do
  let tu ← getF e "TransfereeUniqueid"
  let tn ← getF e "TransferTargetCallerIDName"
  pure ("\x7b\"event\": \"Transfer Call\", \"callid\": \"" ++ tu ++
    "\", \"newuser\": \"" ++ pyLower (pySplitSpaceFirst tn) ++ "\"\x7d")

/-- Identifier of one of the five registered handlers. -/
inductive HandlerId where
  | incoming
  | outgoing
  | hangup
  | accept
  | transfer
deriving DecidableEq

/-- Dispatches a handler identifier to the embedded handler function. -/
def runHandler : HandlerId → Event → Except String String
  | .incoming, e => on_incomming_call e
  | .outgoing, e => on_outgoing_call e
  | .hangup, e => on_hangup e
  | .accept, e => on_accept e
  | .transfer, e => on_transfer e

/-- Modelled from the spec: a field-level predicate of a rule (spec section 3,
FieldPredicate). The two regular expressions registered in the source,
`^SIP/Sipgate_-2615510.*` and `.{5,}`, are modelled by their spec-stated
semantics: a literal-prefix test on the channel name, and "dialed extension
string length at least 5"; the regex engine itself is in the external
`asterisk.ami` / Python `re` libraries, not in this repository's sources. -/
inductive Pred where
  | exact (s : String)
  | startsWith (p : String)
  | minLen (n : Nat)
deriving DecidableEq

/-- Modelled from the spec: evaluation of one field predicate against a field
value (exact string equality is case-sensitive). -/
def evalPred : Pred → String → Bool
  | .exact s, v => v == s
  | .startsWith p, v => p.toList.isPrefixOf v.toList
  | .minLen n, v => decide (n ≤ v.length)

/-- A registered rule: the event kind it is restricted to (the `white_list`
argument), the conjunction of field predicates (the keyword arguments of
`EventListener`), and the handler it fires. -/
structure Rule where
  kind : String
  conds : List (String × Pred)
  handler : HandlerId
deriving DecidableEq

/-- Modelled from the spec: a field predicate holds when the field is present
and its value satisfies the predicate; a field absent from the event makes
the predicate fail (spec section 4.1). -/
def fieldHolds (e : Event) (k : String) (p : Pred) : Bool :=
  match e.fields.lookup k with
  | some v => evalPred p v
  | none => false

/-- Modelled from the spec (section 4.1, the Event Matcher of the external
`asterisk.ami` `EventListener`): an event matches a rule when its kind equals
the rule's kind and every field predicate of the rule holds. -/
def ruleMatches (e : Event) (r : Rule) : Bool :=
  e.kind == r.kind && r.conds.all (fun kp => fieldHolds e kp.1 kp.2)

/-- Source line 55: the incoming-call rule (Newstate, ChannelStateDesc Ring,
Context from-trunk, Channel matching `^SIP/Sipgate_-2615510.*`). -/
def incomingRule : Rule :=
  { kind := "Newstate"
    conds := [("ChannelStateDesc", .exact "Ring"), ("Context", .exact "from-trunk"),
      ("Channel", .startsWith "SIP/Sipgate_-2615510")]
    handler := .incoming }

/-- Source line 56: the outgoing-call rule (Newstate, ChannelStateDesc Ring,
Context from-internal, Exten matching `.{5,}`). -/
def outgoingRule : Rule :=
  { kind := "Newstate"
    conds := [("ChannelStateDesc", .exact "Ring"), ("Context", .exact "from-internal"),
      ("Exten", .minLen 5)]
    handler := .outgoing }

/-- Source line 57: the hangup rule (Hangup, Context from-trunk). -/
def hangupRule : Rule :=
  { kind := "Hangup"
    conds := [("Context", .exact "from-trunk")]
    handler := .hangup }

/-- Source line 58: the accepted-call rule (Newstate, Context from-trunk,
ChannelStateDesc Up). -/
def acceptRule : Rule :=
  { kind := "Newstate"
    conds := [("Context", .exact "from-trunk"), ("ChannelStateDesc", .exact "Up")]
    handler := .accept }

/-- Source line 59: the transfer rule (AttendedTransfer, no field predicate). -/
def transferRule : Rule :=
  { kind := "AttendedTransfer"
    conds := []
    handler := .transfer }

/-- Source lines 55-59: the five rules in registration order. -/
def rules : List Rule :=
  [incomingRule, outgoingRule, hangupRule, acceptRule, transferRule]

/-- The rules a given event matches, in registration order. -/
def matchingRules (e : Event) : List Rule :=
  rules.filter (fun r => ruleMatches e r)

/-- Outcome of evaluating one rule against one event: the payload strings
handed to `send`, and the error log lines. -/
structure RuleOutcome where
  sent : List String
  logs : List String
deriving DecidableEq

/-- Modelled from the spec (sections 4.2 and 7, the dispatch loop of the
external `asterisk.ami` client): a matching rule runs its handler; a handler
error (a `KeyError` for a missing required field) is logged and the
notification for that handler is skipped; a non-matching rule produces
nothing. The result is total: no exception escapes the dispatch path. -/
def dispatchRule (e : Event) (r : Rule) : RuleOutcome :=
  if ruleMatches e r then
    match runHandler r.handler e with
    | .ok s => ⟨[s], []⟩
    | .error m => ⟨[], [m]⟩
  else ⟨[], []⟩

/-- Payload strings produced for one event by a list of rules, in rule order. -/
def sentByRules (e : Event) (rs : List Rule) : List String :=
  (rs.map (fun r => (dispatchRule e r).sent)).flatten

/-- Error log lines produced for one event by a list of rules. -/
def logsByRules (e : Event) (rs : List Rule) : List String :=
  (rs.map (fun r => (dispatchRule e r).logs)).flatten

/-- Payload strings produced for one event by the five registered rules. -/
def eventSent (e : Event) : List String :=
  sentByRules e rules

/-- Error log lines produced for one event by the five registered rules. -/
def eventLogs (e : Event) : List String :=
  logsByRules e rules

/-- Payload strings produced by a whole inbound event sequence, in order. -/
def dispatchEvents (es : List Event) : List String :=
  (es.map eventSent).flatten

/-- Required event fields of each handler: exactly the `event[...]` accesses
performed by the handler's body in the source. -/
def requiredFields : HandlerId → List String
  | .incoming => ["CallerIDNum", "Uniqueid", "Exten"]
  | .outgoing => ["Uniqueid", "Exten", "CallerIDName"]
  | .hangup => ["Uniqueid", "CallerIDNum"]
  | .accept => ["ConnectedLineName", "Uniqueid", "CallerIDNum", "Exten"]
  | .transfer => ["TransfereeUniqueid", "TransferTargetCallerIDName"]

/-- Result of one `requests.post` call: an HTTP response with status code and
body text. -/
structure HttpResponse where
  status_code : Nat
  text : String
deriving DecidableEq

/-- Outcome of one `requests.post` call as seen by `send_bg`: either a
response object, or a raised exception with its description. -/
inductive PostOutcome where
  | response (r : HttpResponse)
  | exception (msg : String)
deriving DecidableEq

/-- Python `s.rstrip()`: removes trailing whitespace. -/
def pyRstrip (s : String) : String :=
  ((s.toList.reverse.dropWhile Char.isWhitespace).reverse).asString

/-- Record of one delivery attempt: the body handed to the single
`requests.post` call, and the log line printed afterwards. -/
structure DeliveryRecord where
  posted : String
  logline : String
deriving DecidableEq

/-- Source lines 15-20 (`send_bg`): performs exactly one `requests.post` with
the payload as body, consuming exactly one outcome from the environment's
outcome stream; on a response it logs `status: text.rstrip()`, on an
exception it logs `Unexpected error: <description>`; it is total, so no
exception escapes to the caller, and there is no retry. The empty-stream
case is unreachable whenever the stream provides one outcome per attempt. -/
def send_bg (string : String) (outcomes : List PostOutcome) :
    DeliveryRecord × List PostOutcome :=
  match outcomes with
  | .response r :: rest =>
    (⟨string, toString r.status_code ++ ": " ++ pyRstrip r.text⟩, rest)
  | .exception m :: rest =>
    (⟨string, "Unexpected error: " ++ m⟩, rest)
  | [] => (⟨string, ""⟩, [])

/-- Sequential execution of the single delivery worker over a list of
submitted payloads, threading the stream of post outcomes: each payload is
attempted exactly once, in submission order, whatever the earlier outcomes
were. -/
def runDeliveries (jobs : List String) (outcomes : List PostOutcome) :
    List DeliveryRecord × List PostOutcome :=
  match jobs with
  | [] => ([], outcomes)
  | j :: rest =>
    let step := send_bg j outcomes
    let tail := runDeliveries rest step.2
    (step.1 :: tail.1, tail.2)

/-- State of the delivery executor (`ThreadPoolExecutor(max_workers=1)`,
source line 13): all payloads submitted so far in order, the queued payloads
not yet started, the at-most-one payload currently being delivered (the
single worker slot), and the completed payloads in completion order. -/
structure ExecState where
  submitted : List String
  pending : List String
  inFlight : Option String
  completed : List String
deriving DecidableEq

/-- Executor state at process start: nothing submitted. -/
def initExec : ExecState := ⟨[], [], none, []⟩

/-- Modelled from the spec (section 5) and `max_workers=1` in the source: the
interleaving semantics of `send` plus the one-worker pool. `submit` is the
non-blocking enqueue performed by `send` on the dispatch path — enabled in
every state, so a slow delivery never blocks dispatch. `start` lets the
single worker take the head of the queue, only when the worker slot is
idle — so no two deliveries run concurrently. `finish` completes the
in-flight delivery (successfully or not) and frees the slot. -/
inductive ExecStep : ExecState → ExecState → Prop where
  | submit (s : ExecState) (p : String) :
      ExecStep s ⟨s.submitted ++ [p], s.pending ++ [p], s.inFlight, s.completed⟩
  | start (s : ExecState) (p : String) (rest : List String)
      (hidle : s.inFlight = none) (hq : s.pending = p :: rest) :
      ExecStep s ⟨s.submitted, rest, some p, s.completed⟩
  | finish (s : ExecState) (p : String) (hbusy : s.inFlight = some p) :
      ExecStep s ⟨s.submitted, s.pending, none, s.completed ++ [p]⟩

/-- States the executor can reach from the initial state. -/
inductive ExecReachable : ExecState → Prop where
  | init : ExecReachable initExec
  | step {s t : ExecState} : ExecReachable s → ExecStep s t → ExecReachable t

/-- A flat JSON renderer over key/value string pairs: one pair as
`"key": "value"` (this is the exact shape the handlers interpolate). -/
def renderPair (k v : String) : String :=
  "\"" ++ k ++ "\": \"" ++ v ++ "\""

/-- Renders a pair list separated by `, ` (comma and space, as in the
handlers' templates). -/
def renderPairs : List (String × String) → String
  | [] => ""
  | [kv] => renderPair kv.1 kv.2
  | kv :: rest => renderPair kv.1 kv.2 ++ ", " ++ renderPairs rest

/-- Renders a full flat JSON object from the pair list. -/
def renderObj (ps : List (String × String)) : String :=
  "\x7b" ++ renderPairs ps ++ "\x7d"

/-- Undoes a JSON two-character escape: the character after the backslash is
mapped to the character it denotes (the `\uXXXX` form is not needed by any
statement below and is not accepted). -/
def unescapeChar (c : Char) : Option Char :=
  if c = quoteChar then some quoteChar
  else if c = backslashChar then some backslashChar
  else if c = Char.ofNat 47 then some (Char.ofNat 47)
  else if c = Char.ofNat 110 then some (Char.ofNat 10)
  else if c = Char.ofNat 116 then some (Char.ofNat 9)
  else if c = Char.ofNat 114 then some (Char.ofNat 13)
  else if c = Char.ofNat 98 then some (Char.ofNat 8)
  else if c = Char.ofNat 102 then some (Char.ofNat 12)
  else none

/-- Parses the body of a JSON string literal (the opening quote already
consumed): returns the denoted characters and the input after the closing
quote; fails on control characters and invalid escapes. -/
def parseStrChars : List Char → Option (List Char × List Char)
  | [] => none
  | c :: rest =>
    if c = quoteChar then some ([], rest)
    else if c = backslashChar then
      match rest with
      | [] => none
      | e :: rest2 =>
        match unescapeChar e, parseStrChars rest2 with
        | some d, some pr => some (d :: pr.1, pr.2)
        | _, _ => none
    else if c.toNat < 32 then none
    else
      match parseStrChars rest with
      | some pr => some (c :: pr.1, pr.2)
      | none => none

/-- JSON insignificant whitespace. -/
def isJsonWs (c : Char) : Bool :=
  c == spaceChar || c == Char.ofNat 9 || c == Char.ofNat 10 || c == Char.ofNat 13

/-- Drops leading JSON whitespace. -/
def skipWs (l : List Char) : List Char :=
  l.dropWhile isJsonWs

/-- Parses a nonempty sequence of `"key": "value"` pairs separated by commas,
up to and including the closing brace; `fuel` bounds the number of pairs. -/
def parsePairsAux : Nat → List Char → Option (List (String × String) × List Char)
  | 0, _ => none
  | fuel + 1, l =>
    match l with
    | [] => none
    | c :: rest =>
      if c = quoteChar then
        match parseStrChars rest with
        | none => none
        | some (k, r1) =>
          match skipWs r1 with
          | [] => none
          | c2 :: r2 =>
            if c2 = colonChar then
              match skipWs r2 with
              | [] => none
              | c3 :: r3 =>
                if c3 = quoteChar then
                  match parseStrChars r3 with
                  | none => none
                  | some (v, r4) =>
                    match skipWs r4 with
                    | [] => none
                    | c5 :: r5 =>
                      if c5 = commaChar then
                        match parsePairsAux fuel (skipWs r5) with
                        | some (ps, r6) => some ((k.asString, v.asString) :: ps, r6)
                        | none => none
                      else if c5 = rbraceChar then
                        some ([(k.asString, v.asString)], r5)
                      else none
                else none
            else none
      else none

/-- Parses a complete flat JSON object — an object whose values are all
string literals — into its key/value pairs in textual order; returns `none`
when the input is not such an object. -/
def parseFlatJson (s : String) : Option (List (String × String)) :=
  match skipWs s.toList with
  | [] => none
  | c :: rest =>
    if c = lbraceChar then
      match skipWs rest with
      | [] => none
      | c2 :: r2 =>
        if c2 = rbraceChar then
          if skipWs r2 = [] then some [] else none
        else
          match parsePairsAux (rest.length + 1) (skipWs rest) with
          | some (ps, r3) => if skipWs r3 = [] then some ps else none
          | none => none
    else none

/-- A character needing no JSON escaping inside a string literal: not the
quote, not the backslash, not a control character. -/
def plainChar (c : Char) : Bool :=
  c != quoteChar && c != backslashChar && decide (32 ≤ c.toNat)

/-- A string whose characters all need no JSON escaping. -/
def plainStr (s : String) : Bool :=
  s.toList.all plainChar

/-- Modelled from the spec (section 4.3): the output key/value pairs
enumerated for each handler in the handler table, drawn from the raw event
fields. The name-derived `user` / `newuser` values use the code's
space-split-and-lower transform; the exact split semantics is settled by
claim C4. -/
def specPairs : HandlerId → Event → Option (List (String × String))
  | .incoming, e => do
    let c ← e.fields.lookup "CallerIDNum"
    let u ← e.fields.lookup "Uniqueid"
    let x ← e.fields.lookup "Exten"
    pure [("event", "Incoming Call"), ("remote", c), ("callid", u), ("dialed", x)]
  | .outgoing, e => do
    let u ← e.fields.lookup "Uniqueid"
    let x ← e.fields.lookup "Exten"
    let n ← e.fields.lookup "CallerIDName"
    pure [("event", "Outgoing Call"), ("callid", u), ("remote", x),
      ("user", pyLower (pySplitSpaceFirst n))]
  | .hangup, e => do
    let u ← e.fields.lookup "Uniqueid"
    let c ← e.fields.lookup "CallerIDNum"
    pure [("event", "Hangup"), ("callid", u), ("remote", c)]
  | .accept, e => do
    let v ← e.fields.lookup "ConnectedLineName"
    let u ← e.fields.lookup "Uniqueid"
    let c ← e.fields.lookup "CallerIDNum"
    let x ← e.fields.lookup "Exten"
    if v = "<unknown>" then
      pure [("event", "Accepted Call"), ("callid", u), ("remote", c), ("dialed", x)]
    else
      pure [("event", "Accepted Call"), ("callid", u), ("remote", c), ("dialed", x),
        ("user", pyLower (pySplitSpaceFirst v))]
  | .transfer, e => do
    let tu ← e.fields.lookup "TransfereeUniqueid"
    let tn ← e.fields.lookup "TransferTargetCallerIDName"
    pure [("event", "Transfer Call"), ("callid", tu),
      ("newuser", pyLower (pySplitSpaceFirst tn))]

/-- Modelled from the spec (section 4.3 edge-case policy): split the name on
the first whitespace run — any whitespace character — take the leading
token, and case-fold it; an empty or whitespace-free name is used whole. -/
def specFirstWordLower (s : String) : String :=
  ((s.toList.takeWhile (fun c => !c.isWhitespace)).map Char.toLower).asString

/-- Scenario 1 of the spec: a Newstate/Ring/from-trunk event on the Sipgate
trunk channel. -/
def scenario1Event : Event :=
  ⟨"Newstate", [("ChannelStateDesc", "Ring"), ("Context", "from-trunk"),
    ("Channel", "SIP/Sipgate_-2615510-00a1"), ("CallerIDNum", "+491701234567"),
    ("Exten", "100"), ("Uniqueid", "1700000000.12")]⟩

/-- An incoming-call event whose CallerIDNum contains a double quote — a
value requiring JSON escaping. -/
def quoteEvent : Event :=
  ⟨"Newstate", [("ChannelStateDesc", "Ring"), ("Context", "from-trunk"),
    ("Channel", "SIP/Sipgate_-2615510-00a1"), ("CallerIDNum", "a\"b"),
    ("Exten", "100"), ("Uniqueid", "1700000000.12")]⟩

/-- An attended-transfer event whose transfer-target name contains a tab
between the words instead of a space. -/
def tabTransferEvent : Event :=
  ⟨"AttendedTransfer", [("TransfereeUniqueid", "77.1"),
    ("TransferTargetCallerIDName", "Bob\tSmith")]⟩

/-- The transfer event of spec scenario 5, with a space-separated
three-word target name. -/
def spaceTransferEvent : Event :=
  ⟨"AttendedTransfer", [("TransfereeUniqueid", "77.2"),
    ("TransferTargetCallerIDName", "Bob Smith Extra")]⟩

/-- An event matching the incoming-call rule but missing the required
CallerIDNum field. -/
def missingFieldEvent : Event :=
  ⟨"Newstate", [("ChannelStateDesc", "Ring"), ("Context", "from-trunk"),
    ("Channel", "SIP/Sipgate_-2615510-00a1"), ("Exten", "100"),
    ("Uniqueid", "1700000000.30")]⟩

/-- An outgoing-dial event with a five-character extension. -/
def outgoing5Event : Event :=
  ⟨"Newstate", [("ChannelStateDesc", "Ring"), ("Context", "from-internal"),
    ("Exten", "12345"), ("Uniqueid", "1700000000.40"),
    ("CallerIDName", "Jane Doe")]⟩

/-- An outgoing-dial event with a four-character extension. -/
def outgoing4Event : Event :=
  ⟨"Newstate", [("ChannelStateDesc", "Ring"), ("Context", "from-internal"),
    ("Exten", "1234"), ("Uniqueid", "1700000000.41"),
    ("CallerIDName", "Jane Doe")]⟩

/-- An accepted-call event whose connected-line name is the sentinel. -/
def acceptUnknownEvent : Event :=
  ⟨"Newstate", [("Context", "from-trunk"), ("ChannelStateDesc", "Up"),
    ("ConnectedLineName", "<unknown>"), ("Uniqueid", "1700000000.50"),
    ("CallerIDNum", "+491701234567"), ("Exten", "100")]⟩

/-- An accepted-call event with the connected-line name "Jane Doe". -/
def acceptJaneEvent : Event :=
  ⟨"Newstate", [("Context", "from-trunk"), ("ChannelStateDesc", "Up"),
    ("ConnectedLineName", "Jane Doe"), ("Uniqueid", "1700000000.51"),
    ("CallerIDNum", "+491701234567"), ("Exten", "100")]⟩

/-- An accepted-call event with an empty connected-line name. -/
def acceptEmptyEvent : Event :=
  ⟨"Newstate", [("Context", "from-trunk"), ("ChannelStateDesc", "Up"),
    ("ConnectedLineName", ""), ("Uniqueid", "1700000000.52"),
    ("CallerIDNum", "+491701234567"), ("Exten", "100")]⟩

/-- Executor state after submitting two payloads and fully delivering the
first: the state reached by the four-step trace used as the C9 witness. -/
def execTraceState : ExecState :=
  ⟨["a", "b"], ["b"], none, ["a"]⟩

end TelixCallHandler
namespace TelixCallHandler

lemma fieldHolds_eq_true {e : Event} {k : String} {p : Pred} :
    fieldHolds e k p = true ↔
      ∃ v, e.fields.lookup k = some v ∧ evalPred p v = true := by
  unfold fieldHolds
  cases h : e.fields.lookup k <;> simp [h]

lemma on_incomming_call_render (e : Event) (c u x : String)
    (hc : e.fields.lookup "CallerIDNum" = some c)
    (hu : e.fields.lookup "Uniqueid" = some u)
    (hx : e.fields.lookup "Exten" = some x) :
    on_incomming_call e = Except.ok (renderObj
      [("event", "Incoming Call"), ("remote", c), ("callid", u), ("dialed", x)]) := by
  simp only [on_incomming_call, getF, hc, hu, hx, bind, Except.bind, pure, Except.pure]
  apply congrArg Except.ok
  apply congrArg String.mk
  simp [renderObj, renderPairs, renderPair, String.data_append]

lemma match_incoming_iff (e : Event) :
    ruleMatches e incomingRule = true ↔
      e.kind = "Newstate" ∧
      e.fields.lookup "ChannelStateDesc" = some "Ring" ∧
      e.fields.lookup "Context" = some "from-trunk" ∧
      (∃ ch, e.fields.lookup "Channel" = some ch ∧
        ("SIP/Sipgate_-2615510" : String).toList.isPrefixOf ch.toList = true) := by
  simp [ruleMatches, incomingRule, fieldHolds_eq_true, evalPred, and_assoc]

lemma match_outgoing_iff (e : Event) :
    ruleMatches e outgoingRule = true ↔
      e.kind = "Newstate" ∧
      e.fields.lookup "ChannelStateDesc" = some "Ring" ∧
      e.fields.lookup "Context" = some "from-internal" ∧
      (∃ s, e.fields.lookup "Exten" = some s ∧ 5 ≤ s.length) := by
  simp [ruleMatches, outgoingRule, fieldHolds_eq_true, evalPred, and_assoc]

lemma match_hangup_iff (e : Event) :
    ruleMatches e hangupRule = true ↔
      e.kind = "Hangup" ∧ e.fields.lookup "Context" = some "from-trunk" := by
  simp [ruleMatches, hangupRule, fieldHolds_eq_true, evalPred]

lemma match_accept_iff (e : Event) :
    ruleMatches e acceptRule = true ↔
      e.kind = "Newstate" ∧
      e.fields.lookup "Context" = some "from-trunk" ∧
      e.fields.lookup "ChannelStateDesc" = some "Up" := by
  simp [ruleMatches, acceptRule, fieldHolds_eq_true, evalPred, and_assoc]

lemma match_transfer_iff (e : Event) :
    ruleMatches e transferRule = true ↔ e.kind = "AttendedTransfer" := by
  simp [ruleMatches, transferRule]

end TelixCallHandler

namespace TelixCallHandler

lemma ruleMatches_kind {e : Event} {r : Rule} (h : ruleMatches e r = true) :
    e.kind = r.kind := by
  simp [ruleMatches] at h
  exact h.1

lemma not_match_12 (e : Event) :
    ¬(ruleMatches e incomingRule = true ∧ ruleMatches e outgoingRule = true) := by
  rintro ⟨h1, h2⟩
  have c1 := ((match_incoming_iff e).mp h1).2.2.1
  have c2 := ((match_outgoing_iff e).mp h2).2.2.1
  rw [c1] at c2
  simp at c2

lemma not_match_14 (e : Event) :
    ¬(ruleMatches e incomingRule = true ∧ ruleMatches e acceptRule = true) := by
  rintro ⟨h1, h2⟩
  have c1 := ((match_incoming_iff e).mp h1).2.1
  have c2 := ((match_accept_iff e).mp h2).2.2
  rw [c1] at c2
  simp at c2

lemma not_match_24 (e : Event) :
    ¬(ruleMatches e outgoingRule = true ∧ ruleMatches e acceptRule = true) := by
  rintro ⟨h1, h2⟩
  have c1 := ((match_outgoing_iff e).mp h1).2.1
  have c2 := ((match_accept_iff e).mp h2).2.2
  rw [c1] at c2
  simp at c2

lemma kind_excl {e : Event} {r1 r2 : Rule} (h1 : ruleMatches e r1 = true)
    (h2 : ruleMatches e r2 = true) : r1.kind = r2.kind := by
  rw [← ruleMatches_kind h1, ruleMatches_kind h2]

lemma pairwise_exclusive (e : Event) :
    ∀ r1 ∈ rules, ∀ r2 ∈ rules, r1 ≠ r2 →
      ¬(ruleMatches e r1 = true ∧ ruleMatches e r2 = true) := by
  intro r1 hr1 r2 hr2 hne ⟨h1, h2⟩
  simp [rules] at hr1 hr2
  rcases hr1 with rfl | rfl | rfl | rfl | rfl <;>
    rcases hr2 with rfl | rfl | rfl | rfl | rfl <;>
      first
      | exact hne rfl
      | exact not_match_12 e ⟨h1, h2⟩
      | exact not_match_12 e ⟨h2, h1⟩
      | exact not_match_14 e ⟨h1, h2⟩
      | exact not_match_14 e ⟨h2, h1⟩
      | exact not_match_24 e ⟨h1, h2⟩
      | exact not_match_24 e ⟨h2, h1⟩
      | exact absurd (kind_excl h1 h2) (by simp [incomingRule, outgoingRule,
          hangupRule, acceptRule, transferRule])

lemma filter_len_le_one {A : Type} (l : List A) (p : A → Bool)
    (h : ∀ a ∈ l, ∀ b ∈ l, a ≠ b → ¬(p a = true ∧ p b = true))
    (hnd : l.Nodup) : (l.filter p).length ≤ 1 := by
  induction l with
  | nil => simp
  | cons a t ih =>
    rcases List.nodup_cons.mp hnd with ⟨ha, hnt⟩
    by_cases hp : p a = true
    · have ht : t.filter p = [] := by
        apply List.filter_eq_nil_iff.mpr
        intro b hb hpb
        have hne : a ≠ b := fun hab => ha (hab ▸ hb)
        exact h a (by simp) b (by simp [hb]) hne ⟨hp, hpb⟩
      simp [List.filter_cons, hp, ht]
    · have hgoal := ih (fun x hx y hy hxy => h x (by simp [hx]) y (by simp [hy]) hxy) hnt
      simpa [List.filter_cons, hp] using hgoal

lemma rules_nodup : rules.Nodup := by decide

lemma matching_le_one (e : Event) : (matchingRules e).length ≤ 1 :=
  filter_len_le_one rules (fun r => ruleMatches e r)
    (fun a ha b hb hne => pairwise_exclusive e a ha b hb hne) rules_nodup

end TelixCallHandler

namespace TelixCallHandler

lemma dispatchRule_not_matching {e : Event} {r : Rule}
    (h : ruleMatches e r = false) : dispatchRule e r = ⟨[], []⟩ := by
  simp [dispatchRule, h]

lemma dispatchRule_sent_le (e : Event) (r : Rule) :
    (dispatchRule e r).sent.length ≤ 1 := by
  unfold dispatchRule
  split
  · cases runHandler r.handler e <;> simp
  · simp

lemma dispatchRule_sent_empty_of_not_matching {e : Event} {r : Rule}
    (h : ruleMatches e r = false) : (dispatchRule e r).sent = [] := by
  simp [dispatchRule, h]

lemma sentByRules_le_matching (e : Event) (rs : List Rule) :
    (sentByRules e rs).length ≤ (rs.filter (fun r => ruleMatches e r)).length := by
  induction rs with
  | nil => simp [sentByRules]
  | cons r t ih =>
    by_cases h : ruleMatches e r = true
    · have h1 := dispatchRule_sent_le e r
      simp only [sentByRules, List.map_cons, List.flatten_cons, List.length_append]
      rw [List.filter_cons_of_pos (by simp [h])]
      simp only [List.length_cons]
      simp only [sentByRules] at ih
      omega
    · rw [Bool.not_eq_true] at h
      simp only [sentByRules, List.map_cons, List.flatten_cons,
        dispatchRule_sent_empty_of_not_matching h, List.nil_append]
      rw [List.filter_cons_of_neg (by simp [h])]
      simpa [sentByRules] using ih

lemma eventSent_le_one (e : Event) : (eventSent e).length ≤ 1 :=
  le_trans (sentByRules_le_matching e rules) (matching_le_one e)

lemma flatten_map_filter_of_empty {A B : Type} [DecidableEq A]
    (l : List A) (f : A → List B) (r : A) (hr : f r = []) :
    (l.map f).flatten = ((l.filter (fun x => x != r)).map f).flatten := by
  induction l with
  | nil => simp
  | cons a t ih =>
    by_cases ha : a = r
    · subst ha
      simp [List.filter_cons, hr, ih]
    · simp [List.filter_cons, bne_iff_ne, ha, ih]

lemma runHandler_not_ok_of_missing (h : HandlerId) (e : Event) (f : String)
    (hf : f ∈ requiredFields h) (habs : e.fields.lookup f = none) :
    (runHandler h e).isOk = false := by
  cases h <;> simp [requiredFields] at hf
  case incoming =>
    rcases hf with rfl | rfl | rfl
    · simp [runHandler, on_incomming_call, getF, bind, Except.bind, Functor.map,
        Except.map, Except.isOk, Except.toBool, habs]
    · cases hv : e.fields.lookup "CallerIDNum" <;>
        simp [runHandler, on_incomming_call, getF, bind, Except.bind, Functor.map,
          Except.map, Except.isOk, Except.toBool, habs, hv]
    · cases hv : e.fields.lookup "CallerIDNum" <;>
        cases hw : e.fields.lookup "Uniqueid" <;>
          simp [runHandler, on_incomming_call, getF, bind, Except.bind, Functor.map,
            Except.map, Except.isOk, Except.toBool, habs, hv, hw]
  case outgoing =>
    rcases hf with rfl | rfl | rfl
    · simp [runHandler, on_outgoing_call, getF, bind, Except.bind, Functor.map,
        Except.map, Except.isOk, Except.toBool, habs]
    · cases hv : e.fields.lookup "Uniqueid" <;>
        simp [runHandler, on_outgoing_call, getF, bind, Except.bind, Functor.map,
          Except.map, Except.isOk, Except.toBool, habs, hv]
    · cases hv : e.fields.lookup "Uniqueid" <;>
        cases hw : e.fields.lookup "Exten" <;>
          simp [runHandler, on_outgoing_call, getF, bind, Except.bind, Functor.map,
            Except.map, Except.isOk, Except.toBool, habs, hv, hw]
  case hangup =>
    rcases hf with rfl | rfl
    · simp [runHandler, on_hangup, getF, bind, Except.bind, Functor.map,
        Except.map, Except.isOk, Except.toBool, habs]
    · cases hv : e.fields.lookup "Uniqueid" <;>
        simp [runHandler, on_hangup, getF, bind, Except.bind, Functor.map,
          Except.map, Except.isOk, Except.toBool, habs, hv]
  case accept =>
    rcases hf with rfl | rfl | rfl | rfl
    · simp [runHandler, on_accept, getF, bind, Except.bind, Functor.map,
        Except.map, Except.isOk, Except.toBool, habs]
    · cases hv : e.fields.lookup "ConnectedLineName" <;>
        simp [runHandler, on_accept, getF, bind, Except.bind, Functor.map,
          Except.map, Except.isOk, Except.toBool, habs, hv]
    · cases hv : e.fields.lookup "ConnectedLineName" <;>
        cases hw : e.fields.lookup "Uniqueid" <;>
          simp [runHandler, on_accept, getF, bind, Except.bind, Functor.map,
            Except.map, Except.isOk, Except.toBool, habs, hv, hw]
    · cases hv : e.fields.lookup "ConnectedLineName" <;>
        cases hw : e.fields.lookup "Uniqueid" <;>
          cases hz : e.fields.lookup "CallerIDNum" <;>
            simp [runHandler, on_accept, getF, bind, Except.bind, Functor.map,
              Except.map, Except.isOk, Except.toBool, habs, hv, hw, hz]
  case transfer =>
    rcases hf with rfl | rfl
    · simp [runHandler, on_transfer, getF, bind, Except.bind, Functor.map,
        Except.map, Except.isOk, Except.toBool, habs]
    · cases hv : e.fields.lookup "TransfereeUniqueid" <;>
        simp [runHandler, on_transfer, getF, bind, Except.bind, Functor.map,
          Except.map, Except.isOk, Except.toBool, habs, hv]

lemma runHandler_error_of_missing (h : HandlerId) (e : Event) (f : String)
    (hf : f ∈ requiredFields h) (habs : e.fields.lookup f = none) :
    ∃ m, runHandler h e = Except.error m := by
  have hk := runHandler_not_ok_of_missing h e f hf habs
  cases hr : runHandler h e with
  | ok s => rw [hr] at hk; simp [Except.isOk, Except.toBool] at hk
  | error m => exact ⟨m, rfl⟩

end TelixCallHandler

namespace TelixCallHandler

lemma data_asString (s : String) : s.data.asString = s :=
  s.asString_toList

lemma renderPair_data (k v : String) :
    (renderPair k v).data =
      quoteChar :: (k.data ++ quoteChar :: colonChar :: spaceChar :: quoteChar ::
        (v.data ++ [quoteChar])) := by
  simp [renderPair, String.data_append, quoteChar, colonChar, spaceChar]

lemma parseStrChars_plain {v : List Char} (hp : ∀ c ∈ v, plainChar c = true)
    (rest : List Char) :
    parseStrChars (v ++ quoteChar :: rest) = some (v, rest) := by
  induction v with
  | nil =>
    unfold parseStrChars
    simp
  | cons c t ih =>
    have hc := hp c (by simp)
    simp only [plainChar, Bool.and_eq_true, bne_iff_ne, ne_eq, decide_eq_true_eq] at hc
    obtain ⟨⟨h1, h2⟩, h3⟩ := hc
    have ht : ∀ x ∈ t, plainChar x = true := fun x hx => hp x (by simp [hx])
    rw [List.cons_append, parseStrChars.eq_def]
    simp [h1, h2, Nat.not_lt.mpr h3, ih ht]

lemma plainStr_mem {s : String} (h : plainStr s = true) :
    ∀ c ∈ s.data, plainChar c = true := by
  intro c hc
  exact List.all_eq_true.mp h c hc

lemma isJsonWs_space : isJsonWs spaceChar = true := by decide

lemma isJsonWs_quote : isJsonWs quoteChar = false := by decide

lemma isJsonWs_colon : isJsonWs colonChar = false := by decide

lemma isJsonWs_comma : isJsonWs commaChar = false := by decide

lemma isJsonWs_rbrace : isJsonWs rbraceChar = false := by decide

lemma isJsonWs_lbrace : isJsonWs lbraceChar = false := by decide

lemma skipWs_cons (c : Char) (l : List Char) :
    skipWs (c :: l) = if isJsonWs c = true then skipWs l else c :: l := by
  simp [skipWs, List.dropWhile_cons]

lemma rbrace_ne_comma : ¬(rbraceChar = commaChar) := by decide

lemma renderPairs_cons_skipWs (kv : String × String) (l : List (String × String))
    (t : List Char) :
    skipWs ((renderPairs (kv :: l)).data ++ t) = (renderPairs (kv :: l)).data ++ t := by
  cases l with
  | nil =>
    rw [renderPairs, renderPair_data]
    simp [skipWs_cons, isJsonWs_quote]
  | cons kv2 l2 =>
    have h2 : renderPairs (kv :: kv2 :: l2) =
        renderPair kv.1 kv.2 ++ ", " ++ renderPairs (kv2 :: l2) := rfl
    rw [h2]
    simp only [String.data_append, renderPair_data, List.cons_append, List.append_assoc]
    simp [skipWs_cons, isJsonWs_quote]

lemma renderPairs_length_ge (ps : List (String × String)) :
    ps.length ≤ (renderPairs ps).data.length := by
  induction ps with
  | nil => simp
  | cons kv rest ih =>
    cases rest with
    | nil => simp [renderPairs, renderPair_data]
    | cons kv2 rest2 =>
      have h2 : (renderPairs (kv :: kv2 :: rest2)).data =
          (renderPair kv.1 kv.2).data ++ (", " : String).data ++
            (renderPairs (kv2 :: rest2)).data := by
        have h3 : renderPairs (kv :: kv2 :: rest2) =
            renderPair kv.1 kv.2 ++ ", " ++ renderPairs (kv2 :: rest2) := rfl
        rw [h3]
        simp [String.data_append]
      rw [h2]
      simp only [List.length_append, List.length_cons]
      simp only [List.length_cons] at ih
      have h3 : 1 ≤ (renderPair kv.1 kv.2).data.length := by
        simp [renderPair_data]
      omega

lemma parsePairsAux_single (k v : String) (hk : plainStr k = true)
    (hv : plainStr v = true) (fuel : Nat) :
    parsePairsAux (fuel + 1) ((renderPair k v).data ++ [rbraceChar]) =
      some ([(k, v)], []) := by
  rw [renderPair_data]
  simp only [List.cons_append, List.append_assoc]
  simp [parsePairsAux, parseStrChars_plain (plainStr_mem hk),
    parseStrChars_plain (plainStr_mem hv), skipWs_cons, isJsonWs_space, isJsonWs_quote,
    isJsonWs_colon, isJsonWs_comma, isJsonWs_rbrace, rbrace_ne_comma, data_asString]

end TelixCallHandler

namespace TelixCallHandler

lemma commaSep_data : (", " : String).data = [commaChar, spaceChar] := by decide

lemma renderPairs_cons_head (kv : String × String) (l : List (String × String)) :
    ∃ t, (renderPairs (kv :: l)).data = quoteChar :: t := by
  cases l with
  | nil =>
    refine ⟨kv.1.data ++ quoteChar :: colonChar :: spaceChar :: quoteChar ::
      (kv.2.data ++ [quoteChar]), ?_⟩
    have h1 : renderPairs [kv] = renderPair kv.1 kv.2 := rfl
    rw [h1, renderPair_data]
  | cons kv2 l2 =>
    refine ⟨kv.1.data ++ quoteChar :: colonChar :: spaceChar :: quoteChar ::
      (kv.2.data ++ quoteChar :: commaChar :: spaceChar ::
        (renderPairs (kv2 :: l2)).data), ?_⟩
    have hren : renderPairs (kv :: kv2 :: l2) =
        renderPair kv.1 kv.2 ++ ", " ++ renderPairs (kv2 :: l2) := rfl
    rw [hren, String.data_append, String.data_append, commaSep_data, renderPair_data]
    simp [List.append_assoc]

lemma parsePairsAux_render (ps : List (String × String)) :
    ps ≠ [] →
    (∀ kv ∈ ps, plainStr kv.1 = true ∧ plainStr kv.2 = true) →
    ∀ fuel, ps.length ≤ fuel →
    parsePairsAux fuel ((renderPairs ps).data ++ [rbraceChar]) = some (ps, []) := by
  induction ps with
  | nil => intro h; exact absurd rfl h
  | cons kv rest ih =>
    intro _ hplain fuel hf
    cases rest with
    | nil =>
      cases fuel with
      | zero => simp at hf
      | succ f =>
        have h1 := (hplain kv (by simp)).1
        have h2 := (hplain kv (by simp)).2
        have hs := parsePairsAux_single kv.1 kv.2 h1 h2 f
        simpa [renderPairs] using hs
    | cons kv2 rest2 =>
      cases fuel with
      | zero => simp at hf
      | succ f =>
        have hplain2 : ∀ x ∈ (kv2 :: rest2), plainStr x.1 = true ∧ plainStr x.2 = true :=
          fun x hx => hplain x (by simp [hx])
        have hlen : (kv2 :: rest2).length ≤ f := by
          simp only [List.length_cons] at hf ⊢
          omega
        have hih := ih (by simp) hplain2 f hlen
        have h1 := (hplain kv (by simp)).1
        have h2 := (hplain kv (by simp)).2
        have hren : renderPairs (kv :: kv2 :: rest2) =
            renderPair kv.1 kv.2 ++ ", " ++ renderPairs (kv2 :: rest2) := rfl
        rw [hren, String.data_append, String.data_append, commaSep_data,
          renderPair_data]
        simp only [List.cons_append, List.append_assoc, List.nil_append]
        simp [parsePairsAux, parseStrChars_plain (plainStr_mem h1),
          parseStrChars_plain (plainStr_mem h2), skipWs_cons, isJsonWs_space,
          isJsonWs_quote, isJsonWs_colon, isJsonWs_comma, isJsonWs_rbrace,
          rbrace_ne_comma, data_asString, renderPairs_cons_skipWs, hih]

lemma renderObj_parses (ps : List (String × String))
    (hplain : ∀ kv ∈ ps, plainStr kv.1 = true ∧ plainStr kv.2 = true) :
    parseFlatJson (renderObj ps) = some ps := by
  cases ps with
  | nil => decide
  | cons kv rest =>
    have hlenb := renderPairs_length_ge (kv :: rest)
    have hq := renderPairs_cons_skipWs kv rest [rbraceChar]
    have hdata : (renderObj (kv :: rest)).data =
        lbraceChar :: ((renderPairs (kv :: rest)).data ++ [rbraceChar]) := by
      rw [renderObj, String.data_append, String.data_append]
      have h1 : ("\x7b" : String).data = [lbraceChar] := by decide
      have h2 : ("\x7d" : String).data = [rbraceChar] := by decide
      rw [h1, h2]
      simp
    have hmain := parsePairsAux_render (kv :: rest) (by simp) hplain
      (((renderPairs (kv :: rest)).data ++ [rbraceChar]).length + 1)
      (by
        simp only [List.length_append, List.length_cons, List.length_nil] at hlenb ⊢
        omega)
    rw [parseFlatJson]
    have htl : (renderObj (kv :: rest)).toList = (renderObj (kv :: rest)).data := rfl
    rw [htl, hdata]
    rw [skipWs_cons, isJsonWs_lbrace]
    simp only [if_false, Bool.false_eq_true]
    rw [if_pos trivial]
    rw [hq]
    obtain ⟨t, ht⟩ := renderPairs_cons_head kv rest
    rw [ht]
    simp only [List.cons_append]
    rw [if_neg (by decide)]
    rw [← List.cons_append, ← ht, hmain]
    simp [skipWs]

end TelixCallHandler

namespace TelixCallHandler

lemma on_hangup_render (e : Event) (u c : String)
    (hu : e.fields.lookup "Uniqueid" = some u)
    (hc : e.fields.lookup "CallerIDNum" = some c) :
    on_hangup e = Except.ok (renderObj
      [("event", "Hangup"), ("callid", u), ("remote", c)]) := by
  simp only [on_hangup, getF, hu, hc, bind, Except.bind, pure, Except.pure]
  apply congrArg Except.ok
  apply congrArg String.mk
  simp [renderObj, renderPairs, renderPair, String.data_append]

lemma on_accept_render_unknown (e : Event) (u c x : String)
    (hv : e.fields.lookup "ConnectedLineName" = some "<unknown>")
    (hu : e.fields.lookup "Uniqueid" = some u)
    (hc : e.fields.lookup "CallerIDNum" = some c)
    (hx : e.fields.lookup "Exten" = some x) :
    on_accept e = Except.ok (renderObj
      [("event", "Accepted Call"), ("callid", u), ("remote", c), ("dialed", x)]) := by
  simp only [on_accept, getF, hv, hu, hc, hx, bind, Except.bind, pure, Except.pure,
    beq_self_eq_true, if_true]
  apply congrArg Except.ok
  apply congrArg String.mk
  simp [renderObj, renderPairs, renderPair, String.data_append]

lemma on_accept_render_known (e : Event) (v u c x : String)
    (hv : e.fields.lookup "ConnectedLineName" = some v)
    (hne : v ≠ "<unknown>")
    (hu : e.fields.lookup "Uniqueid" = some u)
    (hc : e.fields.lookup "CallerIDNum" = some c)
    (hx : e.fields.lookup "Exten" = some x) :
    on_accept e = Except.ok (renderObj
      [("event", "Accepted Call"), ("callid", u), ("remote", c), ("dialed", x),
        ("user", pyLower (pySplitSpaceFirst v))]) := by
  have hbe : (v == "<unknown>") = false := beq_eq_false_iff_ne.mpr hne
  simp only [on_accept, getF, hv, hu, hc, hx, bind, Except.bind, pure, Except.pure,
    hbe, Bool.false_eq_true, if_false]
  apply congrArg Except.ok
  apply congrArg String.mk
  simp [renderObj, renderPairs, renderPair, String.data_append]

lemma on_outgoing_render (e : Event) (u x n : String)
    (hu : e.fields.lookup "Uniqueid" = some u)
    (hx : e.fields.lookup "Exten" = some x)
    (hn : e.fields.lookup "CallerIDName" = some n) :
    on_outgoing_call e = Except.ok (renderObj
      [("event", "Outgoing Call"), ("callid", u), ("remote", x),
        ("user", pyLower (pySplitSpaceFirst n))]) := by
  simp only [on_outgoing_call, getF, hu, hx, hn, bind, Except.bind, pure, Except.pure]
  apply congrArg Except.ok
  apply congrArg String.mk
  simp [renderObj, renderPairs, renderPair, String.data_append]

lemma on_transfer_render (e : Event) (tu tn : String)
    (htu : e.fields.lookup "TransfereeUniqueid" = some tu)
    (htn : e.fields.lookup "TransferTargetCallerIDName" = some tn) :
    on_transfer e = Except.ok (renderObj
      [("event", "Transfer Call"), ("callid", tu),
        ("newuser", pyLower (pySplitSpaceFirst tn))]) := by
  simp only [on_transfer, getF, htu, htn, bind, Except.bind, pure, Except.pure]
  apply congrArg Except.ok
  apply congrArg String.mk
  simp [renderObj, renderPairs, renderPair, String.data_append]

lemma exec_invariant {s : ExecState} (h : ExecReachable s) :
    s.completed ++ s.inFlight.toList ++ s.pending = s.submitted := by
  induction h with
  | init => rfl
  | step hr hs ih =>
    cases hs with
    | submit p =>
      simp only
      rw [← List.append_assoc, ih]
    | start p rest hidle hq =>
      simp only
      rw [← ih, hidle, hq]
      simp
    | finish p hbusy =>
      simp only
      rw [← ih, hbusy]
      simp

lemma runDeliveries_spec (jobs : List String) (outcomes : List PostOutcome)
    (h : outcomes.length = jobs.length) :
    (runDeliveries jobs outcomes).1.length = jobs.length ∧
    (runDeliveries jobs outcomes).1.map DeliveryRecord.posted = jobs ∧
    (runDeliveries jobs outcomes).2 = [] := by
  induction jobs generalizing outcomes with
  | nil =>
    cases outcomes with
    | nil => simp [runDeliveries]
    | cons o t => simp at h
  | cons j rest ih =>
    cases outcomes with
    | nil => simp at h
    | cons o t =>
      have ht : t.length = rest.length := by simpa using h
      have := ih t ht
      cases o with
      | response r => simpa [runDeliveries, send_bg] using this
      | exception m => simpa [runDeliveries, send_bg] using this

end TelixCallHandler

namespace TelixCallHandler

lemma asString_data (l : List Char) : (l.asString).data = l :=
  List.toList_asString l

lemma dropWhile_head_not {A : Type} {p : A → Bool} {l : List A} {c : A}
    {r : List A} (h : l.dropWhile p = c :: r) : p c = false := by
  induction l with
  | nil => simp [List.dropWhile] at h
  | cons a t ih =>
    rw [List.dropWhile_cons] at h
    by_cases hp : p a = true
    · rw [if_pos hp] at h
      exact ih h
    · rw [if_neg hp] at h
      injection h with h1 h2
      subst h1
      cases hpa : p a with
      | true => exact absurd hpa hp
      | false => rfl

end TelixCallHandler

namespace TelixCallHandler

/-- C3: the scenario-1 event (Newstate, Ring, from-trunk, Sipgate channel)
matches exactly the incoming-call rule and no other, and the single payload
produced parses as the flat JSON object with exactly the pairs
event=Incoming Call, remote=+491701234567, callid=1700000000.12,
dialed=100, in that order. -/
theorem C3_scenario1_incoming :
    matchingRules scenario1Event = [incomingRule] ∧
    (eventSent scenario1Event).map parseFlatJson =
      [some [("event", "Incoming Call"), ("remote", "+491701234567"),
        ("callid", "1700000000.12"), ("dialed", "100")]] := by
  decide

/-- C6: for any event with kind Newstate, ChannelStateDesc Ring and Context
from-internal, the outgoing-call rule matches exactly when the Exten field
value has length at least five, whatever its characters (the registered
regex `.{5,}` is modelled by the spec's stated semantics, length at
least 5). -/
theorem C6_outgoing_length_threshold (e : Event) (s : String)
    (hk : e.kind = "Newstate")
    (hcsd : e.fields.lookup "ChannelStateDesc" = some "Ring")
    (hctx : e.fields.lookup "Context" = some "from-internal")
    (hx : e.fields.lookup "Exten" = some s) :
    ruleMatches e outgoingRule = true ↔ 5 ≤ s.length := by
  rw [match_outgoing_iff]
  simp [hk, hcsd, hctx, hx]

/-- Witness for C6 at the five-character extension "12345"; the added
conjunct checks the four-character extension "1234" does not match. -/
theorem C6_witness :
    (ruleMatches outgoing5Event outgoingRule = true ↔
      5 ≤ ("12345" : String).length) ∧
    ruleMatches outgoing4Event outgoingRule = false :=
  ⟨C6_outgoing_length_threshold outgoing5Event "12345" rfl (by decide) (by decide)
    (by decide), by decide⟩

/-- C7: under the five registered rules, an inbound event matches at most one
rule (count of matching rules is at most one), and hence at most one
notification payload is produced per event. -/
theorem C7_at_most_one_rule (e : Event) :
    (matchingRules e).length ≤ 1 ∧
    rules.countP (fun r => ruleMatches e r) ≤ 1 ∧
    (eventSent e).length ≤ 1 := by
  refine ⟨matching_le_one e, ?_, eventSent_le_one e⟩
  rw [List.countP_eq_length_filter]
  exact matching_le_one e

/-- C5: for an event matching the accepted-call rule with all required fields
present, the sentinel name `<unknown>` yields the payload with exactly the
pairs event, callid, remote, dialed (no user key among them), while any
other name yields those four pairs plus user set to the part of the name
before the first space, lower-cased. -/
theorem C5_accept_sentinel (e : Event) (v u c x : String)
    (hm : ruleMatches e acceptRule = true)
    (hv : e.fields.lookup "ConnectedLineName" = some v)
    (hu : e.fields.lookup "Uniqueid" = some u)
    (hc : e.fields.lookup "CallerIDNum" = some c)
    (hx : e.fields.lookup "Exten" = some x) :
    (v = "<unknown>" →
      on_accept e = Except.ok (renderObj
        [("event", "Accepted Call"), ("callid", u), ("remote", c), ("dialed", x)]) ∧
      "user" ∉ ([("event", "Accepted Call"), ("callid", u), ("remote", c),
        ("dialed", x)].map Prod.fst)) ∧
    (v ≠ "<unknown>" →
      on_accept e = Except.ok (renderObj
        [("event", "Accepted Call"), ("callid", u), ("remote", c), ("dialed", x),
          ("user", pyLower (pySplitSpaceFirst v))])) := by
  constructor
  · intro hveq
    subst hveq
    refine ⟨on_accept_render_unknown e u c x hv hu hc hx, ?_⟩
    simp
  · intro hne
    exact on_accept_render_known e v u c x hv hne hu hc hx

/-- Witness for C5: the sentinel event omits the user pair; the "Jane Doe"
event includes user, whose value evaluates to "jane". -/
theorem C5_witness :
    ((("<unknown>" : String) = "<unknown>" →
      on_accept acceptUnknownEvent = Except.ok (renderObj
        [("event", "Accepted Call"), ("callid", "1700000000.50"),
          ("remote", "+491701234567"), ("dialed", "100")]) ∧
      "user" ∉ ([("event", "Accepted Call"), ("callid", "1700000000.50"),
        ("remote", "+491701234567"), ("dialed", "100")].map Prod.fst)) ∧
    (("<unknown>" : String) ≠ "<unknown>" →
      on_accept acceptUnknownEvent = Except.ok (renderObj
        [("event", "Accepted Call"), ("callid", "1700000000.50"),
          ("remote", "+491701234567"), ("dialed", "100"),
          ("user", pyLower (pySplitSpaceFirst "<unknown>"))]))) ∧
    on_accept acceptJaneEvent = Except.ok (renderObj
      [("event", "Accepted Call"), ("callid", "1700000000.51"),
        ("remote", "+491701234567"), ("dialed", "100"), ("user", "jane")]) := by
  refine ⟨C5_accept_sentinel acceptUnknownEvent "<unknown>" "1700000000.50"
    "+491701234567" "100" (by decide) (by decide) (by decide) (by decide)
    (by decide), ?_⟩
  have h := (C5_accept_sentinel acceptJaneEvent "Jane Doe" "1700000000.51"
    "+491701234567" "100" (by decide) (by decide) (by decide) (by decide)
    (by decide)).2 (by decide)
  rw [h]
  have hjane : pyLower (pySplitSpaceFirst "Jane Doe") = "jane" := by decide
  rw [hjane]

/-- C10: the sentinel check of the accepted-call handler is an exact,
case-sensitive comparison against `<unknown>`: any other connected-line
name — the empty string included — produces a payload with a user pair,
whose value for the empty string is the empty string. -/
theorem C10_sentinel_exact (e : Event) (v u c x : String)
    (hm : ruleMatches e acceptRule = true)
    (hv : e.fields.lookup "ConnectedLineName" = some v)
    (hu : e.fields.lookup "Uniqueid" = some u)
    (hc : e.fields.lookup "CallerIDNum" = some c)
    (hx : e.fields.lookup "Exten" = some x)
    (hne : v ≠ "<unknown>") :
    on_accept e = Except.ok (renderObj
      [("event", "Accepted Call"), ("callid", u), ("remote", c), ("dialed", x),
        ("user", pyLower (pySplitSpaceFirst v))]) ∧
    (v = "" → pyLower (pySplitSpaceFirst v) = "") := by
  refine ⟨on_accept_render_known e v u c x hv hne hu hc hx, ?_⟩
  intro hv0
  subst hv0
  decide

/-- Witness for C10 at the empty connected-line name: the payload carries a
user pair with the empty string as value. -/
theorem C10_witness :
    on_accept acceptEmptyEvent = Except.ok (renderObj
      [("event", "Accepted Call"), ("callid", "1700000000.52"),
        ("remote", "+491701234567"), ("dialed", "100"),
        ("user", pyLower (pySplitSpaceFirst ""))]) ∧
    (("" : String) = "" → pyLower (pySplitSpaceFirst "") = "") :=
  C10_sentinel_exact acceptEmptyEvent "" "1700000000.52" "+491701234567" "100"
    (by decide) (by decide) (by decide) (by decide) (by decide) (by decide)

end TelixCallHandler

namespace TelixCallHandler

/-- C1: when an event matches a rule but a field required by the rule's
handler is absent, the handler raises a KeyError, so no payload is produced
for that rule; the dispatch outcome for that rule is no payload plus one
error log line, the event's overall payload list equals that of the other
rules alone, and subsequent events are dispatched independently. -/
theorem C1_missing_field_skips_notification (e : Event) (r : Rule)
    (hr : r ∈ rules) (hm : ruleMatches e r = true) (f : String)
    (hf : f ∈ requiredFields r.handler)
    (habs : e.fields.lookup f = none) :
    ∃ m, runHandler r.handler e = Except.error m ∧
      dispatchRule e r = ⟨[], [m]⟩ ∧
      eventSent e = sentByRules e (rules.filter (fun x => x != r)) ∧
      ∀ es, dispatchEvents (e :: es) = eventSent e ++ dispatchEvents es := by
  obtain ⟨m, hmr⟩ := runHandler_error_of_missing r.handler e f hf habs
  refine ⟨m, hmr, ?_, ?_, ?_⟩
  · simp [dispatchRule, hm, hmr]
  · unfold eventSent sentByRules
    exact flatten_map_filter_of_empty rules (fun x => (dispatchRule e x).sent) r
      (by simp [dispatchRule, hm, hmr])
  · intro es
    simp [dispatchEvents, eventSent]

/-- Witness for C1: an event matching the incoming-call rule with no
CallerIDNum field. -/
theorem C1_witness :
    ∃ m, runHandler incomingRule.handler missingFieldEvent = Except.error m ∧
      dispatchRule missingFieldEvent incomingRule = ⟨[], [m]⟩ ∧
      eventSent missingFieldEvent =
        sentByRules missingFieldEvent (rules.filter (fun x => x != incomingRule)) ∧
      ∀ es, dispatchEvents (missingFieldEvent :: es) =
        eventSent missingFieldEvent ++ dispatchEvents es :=
  C1_missing_field_skips_notification missingFieldEvent incomingRule (by decide)
    (by decide) "CallerIDNum" (by decide) (by decide)

/-- C2 counterexample: at the incoming-call event whose CallerIDNum is
`a"b`, the handler succeeds and the enumerated pair list exists, yet the
string handed to the sender is not a parseable flat JSON object — the
claim that the sent string is always valid JSON with exactly the enumerated
pairs fails at this input. -/
theorem C2_counterexample :
    (specPairs HandlerId.incoming quoteEvent).isSome = true ∧
    (on_incomming_call quoteEvent).isOk = true ∧
    ((on_incomming_call quoteEvent).toOption.bind parseFlatJson) = none := by
  decide

/-- C2 as amended: whenever the handler's enumerated pairs exist and every
key and value consists only of characters needing no JSON escaping, the
string handed to the sender parses back as the flat JSON object with
exactly those pairs. -/
theorem C2_valid_json_when_plain (h : HandlerId) (e : Event)
    (ps : List (String × String)) (hps : specPairs h e = some ps)
    (hplain : ∀ kv ∈ ps, plainStr kv.1 = true ∧ plainStr kv.2 = true) :
    ∃ s, runHandler h e = Except.ok s ∧ parseFlatJson s = some ps := by
  cases h with
  | incoming =>
    cases hc : e.fields.lookup "CallerIDNum" with
    | none => simp [specPairs, hc] at hps
    | some c =>
      cases hu : e.fields.lookup "Uniqueid" with
      | none => simp [specPairs, hc, hu] at hps
      | some u =>
        cases hx : e.fields.lookup "Exten" with
        | none => simp [specPairs, hc, hu, hx] at hps
        | some x =>
          simp only [specPairs, hc, hu, hx, Option.some_bind, Option.pure_def,
            Option.some.injEq, bind] at hps
          subst hps
          exact ⟨_, by simp [runHandler, on_incomming_call_render e c u x hc hu hx],
            renderObj_parses _ hplain⟩
  | outgoing =>
    cases hu : e.fields.lookup "Uniqueid" with
    | none => simp [specPairs, hu] at hps
    | some u =>
      cases hx : e.fields.lookup "Exten" with
      | none => simp [specPairs, hu, hx] at hps
      | some x =>
        cases hn : e.fields.lookup "CallerIDName" with
        | none => simp [specPairs, hu, hx, hn] at hps
        | some n =>
          simp only [specPairs, hu, hx, hn, Option.some_bind, Option.pure_def,
            Option.some.injEq, bind] at hps
          subst hps
          exact ⟨_, by simp [runHandler, on_outgoing_render e u x n hu hx hn],
            renderObj_parses _ hplain⟩
  | hangup =>
    cases hu : e.fields.lookup "Uniqueid" with
    | none => simp [specPairs, hu] at hps
    | some u =>
      cases hc : e.fields.lookup "CallerIDNum" with
      | none => simp [specPairs, hu, hc] at hps
      | some c =>
        simp only [specPairs, hu, hc, Option.some_bind, Option.pure_def,
          Option.some.injEq, bind] at hps
        subst hps
        exact ⟨_, by simp [runHandler, on_hangup_render e u c hu hc],
          renderObj_parses _ hplain⟩
  | accept =>
    cases hv : e.fields.lookup "ConnectedLineName" with
    | none => simp [specPairs, hv] at hps
    | some v =>
      cases hu : e.fields.lookup "Uniqueid" with
      | none => simp [specPairs, hv, hu] at hps
      | some u =>
        cases hc : e.fields.lookup "CallerIDNum" with
        | none => simp [specPairs, hv, hu, hc] at hps
        | some c =>
          cases hx : e.fields.lookup "Exten" with
          | none => simp [specPairs, hv, hu, hc, hx] at hps
          | some x =>
            by_cases hveq : v = "<unknown>"
            · subst hveq
              simp only [specPairs, hv, hu, hc, hx, Option.some_bind,
                Option.pure_def, Option.some.injEq, bind, if_pos rfl,
                eq_self_iff_true, if_true] at hps
              subst hps
              exact ⟨_, by
                simp [runHandler, on_accept_render_unknown e u c x hv hu hc hx],
                renderObj_parses _ hplain⟩
            · simp only [specPairs, hv, hu, hc, hx, Option.some_bind,
                Option.pure_def, Option.some.injEq, bind, if_neg hveq] at hps
              subst hps
              exact ⟨_, by
                simp [runHandler, on_accept_render_known e v u c x hv hveq hu hc hx],
                renderObj_parses _ hplain⟩
  | transfer =>
    cases htu : e.fields.lookup "TransfereeUniqueid" with
    | none => simp [specPairs, htu] at hps
    | some tu =>
      cases htn : e.fields.lookup "TransferTargetCallerIDName" with
      | none => simp [specPairs, htu, htn] at hps
      | some tn =>
        simp only [specPairs, htu, htn, Option.some_bind, Option.pure_def,
          Option.some.injEq, bind] at hps
        subst hps
        exact ⟨_, by simp [runHandler, on_transfer_render e tu tn htu htn],
          renderObj_parses _ hplain⟩

/-- Witness for the amended C2 at scenario 1, whose field values are all
escape-free. -/
theorem C2_witness :
    ∃ s, runHandler HandlerId.incoming scenario1Event = Except.ok s ∧
      parseFlatJson s = some [("event", "Incoming Call"),
        ("remote", "+491701234567"), ("callid", "1700000000.12"),
        ("dialed", "100")] :=
  C2_valid_json_when_plain HandlerId.incoming scenario1Event
    [("event", "Incoming Call"), ("remote", "+491701234567"),
      ("callid", "1700000000.12"), ("dialed", "100")] (by decide) (by decide)

/-- C4 counterexample: at a transfer event whose target name is
`Bob<TAB>Smith`, the code emits newuser `bob<TAB>smith` (the tab does not
split, only a space does), while the claim's whitespace-run splitting
demands `bob`. -/
theorem C4_counterexample :
    on_transfer tabTransferEvent = Except.ok (renderObj
      [("event", "Transfer Call"), ("callid", "77.1"),
        ("newuser", "bob	smith")]) ∧
    specFirstWordLower "Bob	Smith" = "bob" ∧
    ¬(("bob	smith" : String) = "bob") := by
  refine ⟨?_, by decide, by decide⟩
  have h := on_transfer_render tabTransferEvent "77.1" "Bob	Smith" (by decide)
    (by decide)
  rw [h]
  have hval : pyLower (pySplitSpaceFirst "Bob	Smith") = "bob	smith" := by decide
  rw [hval]

/-- C4 as amended: the emitted user / newuser value is the part of the name
before the first space character (U+0020) — other whitespace such as a tab
does not separate — lower-cased; an empty or space-free name is used whole.
The first conjunct characterizes the transform: the name decomposes into a
space-free leading token, whose lower-casing is the emitted value, followed
by a rest that is empty or starts with a space. -/
theorem C4_space_split_lowered :
    (∀ s : String, ∃ t r, s.data = t ++ r ∧ (∀ c ∈ t, ¬(c = spaceChar)) ∧
      (r = [] ∨ r.head? = some spaceChar) ∧
      pyLower (pySplitSpaceFirst s) = (t.map Char.toLower).asString) ∧
    (∀ (e : Event) (tu tn : String),
      e.fields.lookup "TransfereeUniqueid" = some tu →
      e.fields.lookup "TransferTargetCallerIDName" = some tn →
      on_transfer e = Except.ok (renderObj [("event", "Transfer Call"),
        ("callid", tu), ("newuser", pyLower (pySplitSpaceFirst tn))])) ∧
    (∀ (e : Event) (u x n : String),
      e.fields.lookup "Uniqueid" = some u →
      e.fields.lookup "Exten" = some x →
      e.fields.lookup "CallerIDName" = some n →
      on_outgoing_call e = Except.ok (renderObj [("event", "Outgoing Call"),
        ("callid", u), ("remote", x), ("user", pyLower (pySplitSpaceFirst n))])) ∧
    (∀ (e : Event) (v u c x : String),
      e.fields.lookup "ConnectedLineName" = some v → v ≠ "<unknown>" →
      e.fields.lookup "Uniqueid" = some u →
      e.fields.lookup "CallerIDNum" = some c →
      e.fields.lookup "Exten" = some x →
      on_accept e = Except.ok (renderObj [("event", "Accepted Call"),
        ("callid", u), ("remote", c), ("dialed", x),
        ("user", pyLower (pySplitSpaceFirst v))])) := by
  refine ⟨?_, fun e tu tn htu htn => on_transfer_render e tu tn htu htn,
    fun e u x n hu hx hn => on_outgoing_render e u x n hu hx hn,
    fun e v u c x hv hne hu hc hx => on_accept_render_known e v u c x hv hne hu hc hx⟩
  intro s
  refine ⟨s.data.takeWhile (fun c => c != spaceChar),
    s.data.dropWhile (fun c => c != spaceChar),
    (List.takeWhile_append_dropWhile (fun c => c != spaceChar) s.data).symm,
    ?_, ?_, ?_⟩
  · intro c hc
    have hp := List.mem_takeWhile_imp hc
    exact bne_iff_ne.mp hp
  · cases hr : s.data.dropWhile (fun c => c != spaceChar) with
    | nil => exact Or.inl rfl
    | cons c2 r2 =>
      right
      have hb := dropWhile_head_not hr
      have hc2 : c2 = spaceChar := by
        cases hq : c2 == spaceChar with
        | true => exact beq_iff_eq.mp hq
        | false => simp [bne, hq] at hb
      simp [List.head?, hc2]
  · have htl : s.toList = s.data := rfl
    simp [pyLower, pySplitSpaceFirst, htl, List.toList_asString, asString_data]

/-- Witness for the amended C4 at spec scenario 5. -/
theorem C4_witness :
    on_transfer spaceTransferEvent = Except.ok (renderObj
      [("event", "Transfer Call"), ("callid", "77.2"),
        ("newuser", pyLower (pySplitSpaceFirst "Bob Smith Extra"))]) ∧
    pyLower (pySplitSpaceFirst "Bob Smith Extra") = "bob" :=
  ⟨C4_space_split_lowered.2.1 spaceTransferEvent "77.2" "Bob Smith Extra"
    (by decide) (by decide), by decide⟩

/-- C8: a delivery attempt consumes exactly one post outcome per payload —
one HTTP POST each, never a retry — logs the response status and stripped
text or the exception description, raises nothing (the model is total), and
a failed delivery never prevents the next payload from being attempted. -/
theorem C8_failures_absorbed (jobs : List String) (outcomes : List PostOutcome)
    (h : outcomes.length = jobs.length) :
    (runDeliveries jobs outcomes).1.length = jobs.length ∧
    (runDeliveries jobs outcomes).1.map DeliveryRecord.posted = jobs ∧
    (runDeliveries jobs outcomes).2 = [] ∧
    (∀ p r rest, send_bg p (PostOutcome.response r :: rest) =
      (⟨p, toString r.status_code ++ ": " ++ pyRstrip r.text⟩, rest)) ∧
    (∀ p m rest, send_bg p (PostOutcome.exception m :: rest) =
      (⟨p, "Unexpected error: " ++ m⟩, rest)) := by
  obtain ⟨h1, h2, h3⟩ := runDeliveries_spec jobs outcomes h
  exact ⟨h1, h2, h3, fun p r rest => rfl, fun p m rest => rfl⟩

/-- Witness for C8 with two payloads where the first delivery raises. -/
theorem C8_witness :
    (runDeliveries ["a", "b"]
      [PostOutcome.exception "boom",
        PostOutcome.response ⟨200, "ok"⟩]).1.length = (["a", "b"] : List String).length ∧
    (runDeliveries ["a", "b"]
      [PostOutcome.exception "boom",
        PostOutcome.response ⟨200, "ok"⟩]).1.map DeliveryRecord.posted = ["a", "b"] ∧
    (runDeliveries ["a", "b"]
      [PostOutcome.exception "boom", PostOutcome.response ⟨200, "ok"⟩]).2 = [] ∧
    (∀ p r rest, send_bg p (PostOutcome.response r :: rest) =
      (⟨p, toString r.status_code ++ ": " ++ pyRstrip r.text⟩, rest)) ∧
    (∀ p m rest, send_bg p (PostOutcome.exception m :: rest) =
      (⟨p, "Unexpected error: " ++ m⟩, rest)) :=
  C8_failures_absorbed ["a", "b"]
    [PostOutcome.exception "boom", PostOutcome.response ⟨200, "ok"⟩] rfl

/-- C9: in every reachable executor state, the completed deliveries followed
by the at-most-one in-flight delivery form a prefix of the submissions in
submission order (single worker, no reordering, at most as many POSTs as
submissions), and the submit step of the dispatch path is enabled in every
state, so a slow delivery never blocks dispatch. -/
theorem C9_serialized_deliveries (s : ExecState) (h : ExecReachable s) :
    (s.completed ++ s.inFlight.toList) <+: s.submitted ∧
    s.completed.length + s.inFlight.toList.length ≤ s.submitted.length ∧
    (∀ p, ExecStep s
      ⟨s.submitted ++ [p], s.pending ++ [p], s.inFlight, s.completed⟩) := by
  have hinv := exec_invariant h
  refine ⟨⟨s.pending, hinv⟩, ?_, fun p => ExecStep.submit s p⟩
  have hlen := congrArg List.length hinv
  simp only [List.length_append] at hlen
  omega

/-- Witness for C9 at the state reached by submitting two payloads,
delivering the first to completion. -/
theorem C9_witness :
    (execTraceState.completed ++ execTraceState.inFlight.toList) <+:
      execTraceState.submitted ∧
    execTraceState.completed.length + execTraceState.inFlight.toList.length ≤
      execTraceState.submitted.length ∧
    (∀ p, ExecStep execTraceState
      ⟨execTraceState.submitted ++ [p], execTraceState.pending ++ [p],
        execTraceState.inFlight, execTraceState.completed⟩) :=
  C9_serialized_deliveries execTraceState
    (ExecReachable.step (ExecReachable.step (ExecReachable.step
      (ExecReachable.step ExecReachable.init (ExecStep.submit initExec "a"))
      (ExecStep.submit _ "b")) (ExecStep.start _ "a" ["b"] rfl rfl))
      (ExecStep.finish _ "a" rfl))

end TelixCallHandler
